import Mathlib

/-!
Shallow embedding of the process supervisor in `watcher.py`
(`class ProcessWatcher`).

The OS is modelled as an explicit environment `Env`: a snapshot of the
live process table (`procs`, in `psutil.process_iter` order), the
readable-and-parsable content of PID files, the outcome of spawning a
process, of writing a PID file, and of terminating a given PID.
Python `Optional[str]` fields become `Option String`; Python string
truthiness (`if s:`) is `optTruthy`; Python key-presence tests
(`'k' in config`) are `Option.isSome`.
-/

namespace Watchdog

/-- One live OS process as seen through `psutil`:
its PID, its command-line argument vector and its executable path
(`None`/unavailable modelled as `none`). -/
structure OsProc where
  pid : Nat
  cmdline : List String
  exe : Option String
deriving DecidableEq, Repr

/-- Outcome of the termination attempt in `stop_process` for one PID:
`ok` — `terminate()` (possibly followed by `kill()`) succeeded;
`gone` — `psutil.Process`/`terminate` raised `NoSuchProcess` or
`AccessDenied` (the `except` branch at watcher.py:225);
`err` — any other exception (the generic `except` at watcher.py:228). -/
inductive TermOutcome where
  | ok
  | gone
  | err
deriving DecidableEq, Repr

/-- One entry of the configuration list (`self.processes` holds dicts;
optional keys become `Option`).  `enabled` models
`p_config.get('enabled', True)`. -/
structure Spec where
  name : String
  command : List String
  cwd : Option String := none
  pid_file : Option String := none
  process_match : Option String := none
  executable_path : Option String := none
  enabled : Bool := true
deriving DecidableEq, Repr

/-- The OS environment a `ProcessWatcher` call runs against. -/
structure Env where
  /-- The live process table, in `psutil.process_iter` order.
  `psutil.pid_exists p` holds iff some entry has pid `p`. -/
  procs : List OsProc
  /-- `pidFileContent f = some pid` iff file `f` exists, is readable and
  its stripped content parses as the integer `pid`
  (watcher.py:38-41, `ValueError`/`OSError` collapse to `none`). -/
  pidFileContent : String → Option Nat
  /-- Result of process creation in `start_process`: `some pid` if a PID
  was obtained, `none` if `Popen` raised (or, on Windows, the WMI
  launcher failed before a PID was obtained). -/
  spawn : Option Nat
  /-- Whether writing the given PID file succeeds (watcher.py:172-173);
  `false` means `open`/`write` raised. -/
  pidWrite : String → Bool
  /-- Termination outcome for each candidate PID (watcher.py:215-229). -/
  kill : Nat → TermOutcome
  /-- Result of re-reading the configuration file in `load_config`:
  `none` when the file is missing or the JSON fails to decode
  (both leave the state untouched), `some specs` on success. -/
  configFile : Option (List Spec)

/-- The mutable fields of `ProcessWatcher`: the spec list
`self.processes`, the launched map `self.running_processes`
(an insertion-ordered dict, modelled as an association list) and the
manually-stopped set `self.stopped_processes` (a set of names,
modelled as a duplicate-free list). -/
structure WatcherState where
  processes : List Spec
  running_processes : List (String × Nat)
  stopped_processes : List String
deriving DecidableEq, Repr

/-- `psutil.pid_exists`. -/
def pid_exists (E : Env) (pid : Nat) : Bool :=
  E.procs.any (fun p => p.pid == pid)

/-- `psutil.Process(pid)` — the first table entry with this PID,
`none` when the PID does not exist. -/
def procByPid (E : Env) (pid : Nat) : Option OsProc :=
  E.procs.find? (fun p => p.pid == pid)

/-- Python string truthiness for an `Optional[str]`:
`None` and `""` are falsy. -/
def optTruthy : Option String → Bool
  | none => false
  | some s => s != ""

/-- `Option.getD · ""`, for reading a field already known truthy. -/
def getS (o : Option String) : String := o.getD ""

/-- Python `needle in hay` on lists (contiguous-sublist test),
written out so it computes by structural recursion on the haystack. -/
def infixOfB [BEq α] (needle hay : List α) : Bool :=
  needle.isPrefixOf hay ||
    match hay with
    | [] => false
    | _ :: t => infixOfB needle t

/-- Python substring test `needle in hay`. -/
def strContains (hay needle : String) : Bool :=
  infixOfB needle.data hay.data

/-- `" ".join(cmdline)`. -/
def joinSpace (l : List String) : String :=
  String.intercalate " " l

/-- `str.split('/')`: split on every slash, keeping empty components
(the caller never passes the empty string). -/
def splitSlash : List Char → List Char → List String
  | [], acc => [String.mk acc.reverse]
  | x :: xs, acc =>
    if x == '/' then String.mk acc.reverse :: splitSlash xs []
    else splitSlash xs (x :: acc)

/-- `str.lower()` (ASCII case folding, which is all that occurs in
executable paths). -/
def strLower (s : String) : String :=
  String.mk (s.data.map Char.toLower)

/-- Component loop of `posixpath.normpath`; the accumulator is the list
of kept components in reverse. -/
def normAux (initialSlashes : Bool) : List String → List String → List String
  | acc, [] => acc
  | acc, c :: rest =>
    if c == "" || c == "." then normAux initialSlashes acc rest
    else if c != ".." || (!initialSlashes && acc.isEmpty) || acc.headD "" == ".." then
      normAux initialSlashes (c :: acc) rest
    else
      normAux initialSlashes acc.tail rest

/-- `os.path.normpath` (POSIX flavour, as on the deployment host):
collapses separators, drops `.` components, resolves `..`, keeps the
special two-leading-slash form. -/
def normpath (p : String) : String :=
  if p == "" then "." else
  let initSlashes : Nat :=
    match p.data with
    | '/' :: '/' :: '/' :: _ => 1
    | '/' :: '/' :: _ => 2
    | '/' :: _ => 1
    | _ => 0
  let newComps := (normAux (initSlashes != 0) [] (splitSlash p.data [])).reverse
  let res := String.mk (List.replicate initSlashes '/') ++
    String.intercalate "/" newComps
  if res == "" then "." else res

/-- The executable-path comparison used throughout `watcher.py`:
`os.path.normpath(a).lower() == os.path.normpath(b).lower()`. -/
def pathEq (a b : String) : Bool :=
  strLower (normpath a) == strLower (normpath b)

/-- `ProcessWatcher.check_pid_file` (watcher.py:37-61): read a PID from
the file, require the PID to exist, then verify the executable path and
the match string when those arguments are truthy; any failed check
rejects the PID-file result. -/
def check_pid_file (E : Env) (pid_file : String)
    (match_string executable_path : Option String) : Option Nat :=
  match E.pidFileContent pid_file with
  | none => none
  | some pid =>
    match procByPid E pid with
    | none => none
    | some proc =>
      if optTruthy executable_path &&
          (!optTruthy proc.exe || !pathEq (getS executable_path) (getS proc.exe)) then
        none
      else if optTruthy match_string &&
          (proc.cmdline.isEmpty || !strContains (joinSpace proc.cmdline) (getS match_string)) then
        none
      else
        some pid

/-- Scan loop of `find_process_by_match` over the process table. -/
def findAux (ms ep : Option String) : List OsProc → Option Nat
  | [] => none
  | proc :: rest =>
    if optTruthy ep && optTruthy proc.exe && pathEq (getS ep) (getS proc.exe) then
      some proc.pid
    else if optTruthy ms && !proc.cmdline.isEmpty &&
        strContains (joinSpace proc.cmdline) (getS ms) then
      some proc.pid
    else findAux ms ep rest

/-- `ProcessWatcher.find_process_by_match` (watcher.py:63-78): first
process whose executable equals `executable_path` (checked first, when
both sides are truthy), else first process whose joined command line
contains `match_string`. -/
def find_process_by_match (E : Env)
    (match_string executable_path : Option String) : Option Nat :=
  findAux match_string executable_path E.procs

/-- The three-step resolution chain duplicated verbatim at
watcher.py:94-102 (`is_running`) and watcher.py:197-205
(`stop_process`): PID file first, then command-line match scan, then
executable-only scan. -/
def resolve_spec (E : Env) (config : Spec) : Option Nat :=
  let pid1 : Option Nat :=
    match config.pid_file with
    | some pf => check_pid_file E pf config.process_match config.executable_path
    | none => none
  let pid2 : Option Nat :=
    if pid1.isNone && config.process_match.isSome then
      find_process_by_match E config.process_match config.executable_path
    else pid1
  if pid2.isNone && config.executable_path.isSome && !config.process_match.isSome then
    find_process_by_match E none config.executable_path
  else pid2

/-- `ProcessWatcher.get_config_by_name` (watcher.py:106-110). -/
def get_config_by_name (s : WatcherState) (name : String) : Option Spec :=
  s.processes.find? (fun p => p.name == name)

/-- The config-based half of `is_running` (watcher.py:89-104). -/
def is_running_lookup (E : Env) (s : WatcherState) (name : String) : Bool :=
  match get_config_by_name s name with
  | none => false
  | some config => (resolve_spec E config).isSome

/-- `del self.running_processes[name]`. -/
def eraseRunning (s : WatcherState) (name : String) : WatcherState :=
  { s with running_processes := s.running_processes.filter (fun q => q.1 != name) }

/-- `ProcessWatcher.is_running` (watcher.py:80-104).  Returns the result
together with the possibly-updated state: a dead internally-tracked PID
is pruned from `running_processes` before falling through to the
config-based lookup. -/
def is_running (E : Env) (s : WatcherState) (name : String) : Bool × WatcherState :=
  match s.running_processes.lookup name with
  | some pid =>
    if pid_exists E pid then (true, s)
    else
      let s' := eraseRunning s name
      (is_running_lookup E s' name, s')
  | none => (is_running_lookup E s name, s)

/-- `set.add` on the stopped-names set. -/
def insertStopped (l : List String) (x : String) : List String :=
  if l.contains x then l else l ++ [x]

/-- `set.remove`-if-present on the stopped-names set
(watcher.py:119-120). -/
def eraseStopped (l : List String) (x : String) : List String :=
  l.filter (fun y => y != x)

/-- Dict assignment `d[k] = v`: updates the (unique) existing key in
place, otherwise appends (Python dicts keep insertion order). -/
def dictInsert [BEq α] : List (α × β) → α → β → List (α × β)
  | [], k, v => [(k, v)]
  | q :: t, k, v => if q.1 == k then (k, v) :: t else q :: dictInsert t k v

/-- Result of `start_process`, instrumented with whether a process was
actually spawned (`spawned` is ghost state used only by theorems; the
Python function returns just the boolean). -/
structure StartResult where
  ok : Bool
  st : WatcherState
  spawned : Bool
deriving DecidableEq, Repr

/-- `ProcessWatcher.start_process` (watcher.py:112-179), modelling the
POSIX `Popen` branch; `E.spawn = none` covers both a raised spawn error
and the Windows launcher paths that return `False` before a PID is
obtained.  Note the order of effects: the already-running short-circuit
(which may prune a dead tracked PID via `is_running`), then removal
from `stopped_processes`, then the config lookup, then the spawn, then
recording the PID, then the PID-file write. -/
def start_process (E : Env) (s : WatcherState) (name : String) : StartResult :=
  let r := is_running E s name
  if r.1 then ⟨true, r.2, false⟩
  else
    let s2 := { r.2 with stopped_processes := eraseStopped r.2.stopped_processes name }
    match get_config_by_name s2 name with
    | none => ⟨false, s2, false⟩
    | some config =>
      match E.spawn with
      | none => ⟨false, s2, false⟩
      | some pid =>
        let s3 := { s2 with running_processes := dictInsert s2.running_processes name pid }
        match config.pid_file with
        | none => ⟨true, s3, true⟩
        | some pf =>
          if E.pidWrite pf then ⟨true, s3, true⟩
          else ⟨false, s3, true⟩

/-- Result of `stop_process`, instrumented with the candidate-PID set
`pids_to_kill` (ghost state used only by theorems). -/
structure StopResult where
  ok : Bool
  st : WatcherState
  candidates : List Nat
deriving DecidableEq, Repr

/-- `ProcessWatcher.stop_process` (watcher.py:181-231): collect the
internally-tracked PID (removing its entry) and a fresh resolver
lookup into the set `pids_to_kill` (the lookup PID is added only when
truthy, i.e. nonzero — `if pid_from_lookup:` at watcher.py:207), always
add `name` to `stopped_processes`, then signal every candidate;
the result is true iff some candidate terminated cleanly or was
already gone. -/
def stop_process (E : Env) (s : WatcherState) (name : String) : StopResult :=
  let internal : List Nat :=
    match s.running_processes.lookup name with
    | some pid => [pid]
    | none => []
  let s1 :=
    match s.running_processes.lookup name with
    | some _ => eraseRunning s name
    | none => s
  let s2 := { s1 with stopped_processes := insertStopped s1.stopped_processes name }
  let lookupPid : Option Nat :=
    match get_config_by_name s2 name with
    | none => none
    | some config => resolve_spec E config
  let cands : List Nat :=
    match lookupPid with
    | some p => if p != 0 && !internal.contains p then internal ++ [p] else internal
    | none => internal
  if cands.isEmpty then ⟨false, s2, cands⟩
  else
    ⟨cands.any (fun p =>
      match E.kill p with
      | .err => false
      | _ => true), s2, cands⟩

/-- `ProcessWatcher.restart_process` (watcher.py:233-236):
stop, settle, start (the settle interval has no effect on the model). -/
def restart_process (E : Env) (s : WatcherState) (name : String) : StartResult :=
  start_process E (stop_process E s name).st name

/-- `ProcessWatcher.load_config` (watcher.py:22-35): a missing file or a
JSON decode error leaves the state untouched; otherwise the spec list
is replaced wholesale.  `running_processes` and `stopped_processes`
are never touched. -/
def load_config (E : Env) (s : WatcherState) : WatcherState :=
  match E.configFile with
  | none => s
  | some specs => { s with processes := specs }

/-- Loop body of one tick of `monitor_loop` (watcher.py:240-253),
iterating the snapshot of `self.processes`; returns the final state and
the names for which `start_process` was invoked this tick. -/
def monitor_tick_aux (E : Env) :
    List Spec → WatcherState → List String → WatcherState × List String
  | [], s, started => (s, started)
  | p :: rest, s, started =>
    if !p.enabled then monitor_tick_aux E rest s started
    else if s.stopped_processes.contains p.name then monitor_tick_aux E rest s started
    else
      let r := is_running E s p.name
      if r.1 then monitor_tick_aux E rest r.2 started
      else monitor_tick_aux E rest (start_process E r.2 p.name).st (started ++ [p.name])

/-- One tick of `ProcessWatcher.monitor_loop` (watcher.py:238-253):
skip disabled specs and manually-stopped names; start whatever is
not running. -/
def monitor_tick (E : Env) (s : WatcherState) : WatcherState × List String :=
  monitor_tick_aux E s.processes s []

/-- `n` consecutive ticks of the monitor loop, accumulating every name
`start_process` was invoked for. -/
def monitor_ticks (E : Env) : Nat → WatcherState → WatcherState × List String
  | 0, s => (s, [])
  | n + 1, s =>
    let r := monitor_tick E s
    let r2 := monitor_ticks E n r.1
    (r2.1, r.2 ++ r2.2)

/-- Recursion over the spec list for `get_all_statuses`, building the
`statuses` dict with `dictInsert`. -/
def get_all_statuses_aux (E : Env) :
    List Spec → List (String × String) → WatcherState →
    List (String × String) × WatcherState
  | [], acc, s => (acc, s)
  | p :: rest, acc, s =>
    let r := is_running E s p.name
    let status :=
      if r.1 then "Running"
      else if r.2.stopped_processes.contains p.name then "Stopped (Manual)"
      else "Stopped"
    get_all_statuses_aux E rest (dictInsert acc p.name status) r.2

/-- `ProcessWatcher.get_all_statuses` (watcher.py:255-265): one status
per spec in declaration order (disabled specs included), threading the
`is_running` state updates through the scan. -/
def get_all_statuses (E : Env) (s : WatcherState) :
    List (String × String) × WatcherState :=
  get_all_statuses_aux E s.processes [] s

/-! ### Basic lemmas about the embedding -/

theorem lookup_cons (a : α) (x : α × β) (t : List (α × β)) [BEq α] :
    (x :: t).lookup a = if a == x.1 then some x.2 else t.lookup a := by
  rcases x with ⟨k, v⟩
  simp only [List.lookup]
  cases h : a == k <;> simp [h]

/-- Erasing a key makes its lookup fail. -/
theorem lookup_filterOut_self [BEq α] [LawfulBEq α] (l : List (α × β)) (a : α) :
    (l.filter (fun q => q.1 != a)).lookup a = none := by
  induction l with
  | nil => rfl
  | cons x t ih =>
    by_cases hx : x.1 = a
    · simpa [List.filter_cons, hx] using ih
    · simp [List.filter_cons, hx, lookup_cons, ih, Ne.symm hx]

/-- Erasing one key leaves every other key's lookup unchanged. -/
theorem lookup_filterOut_other [BEq α] [LawfulBEq α] (l : List (α × β)) (a b : α)
    (h : b ≠ a) : (l.filter (fun q => q.1 != a)).lookup b = l.lookup b := by
  induction l with
  | nil => rfl
  | cons x t ih =>
    by_cases hx : x.1 = a
    · have hb : (b == x.1) = false := by simp [hx, h]
      simp [List.filter_cons, hx, lookup_cons, ih]
      simp [hb]
    · simp [List.filter_cons, hx, lookup_cons, ih]

theorem lookup_dictInsert_self [BEq α] [LawfulBEq α] (l : List (α × β)) (k : α) (v : β) :
    (dictInsert l k v).lookup k = some v := by
  induction l with
  | nil => simp [dictInsert, lookup_cons]
  | cons x t ih =>
    by_cases hx : x.1 = k
    · simp [dictInsert, hx, lookup_cons]
    · have hne : (x.1 == k) = false := by simp [hx]
      simp [dictInsert, hne, lookup_cons, ih, Ne.symm hx]

theorem lookup_dictInsert_other [BEq α] [LawfulBEq α] (l : List (α × β)) (k a : α) (v : β)
    (h : a ≠ k) : (dictInsert l k v).lookup a = l.lookup a := by
  induction l with
  | nil => simp [dictInsert, lookup_cons, h]
  | cons x t ih =>
    by_cases hx : x.1 = k
    · simp [dictInsert, hx, lookup_cons, h, hx ▸ h]
    · have hne : (x.1 == k) = false := by simp [hx]
      simp [dictInsert, hne, lookup_cons, ih]

theorem mem_insertStopped_self (l : List String) (x : String) :
    x ∈ insertStopped l x := by
  unfold insertStopped
  by_cases h : x ∈ l <;> simp [h]

theorem mem_insertStopped_of_mem (l : List String) (x y : String) (h : y ∈ l) :
    y ∈ insertStopped l x := by
  unfold insertStopped
  split <;> simp [h]

theorem mem_eraseStopped (l : List String) (x y : String) (h : y ∈ l) (hne : y ≠ x) :
    y ∈ eraseStopped l x := by
  simp [eraseStopped, List.mem_filter, h, hne]

/-- `is_running` leaves the state alone, or merely prunes the dead
tracked entry for `name`. -/
theorem is_running_snd (E : Env) (s : WatcherState) (name : String) :
    (is_running E s name).2 = s ∨ (is_running E s name).2 = eraseRunning s name := by
  unfold is_running
  cases s.running_processes.lookup name with
  | none => left; rfl
  | some pid =>
    cases h : pid_exists E pid <;> simp [h]

theorem is_running_processes (E : Env) (s : WatcherState) (name : String) :
    (is_running E s name).2.processes = s.processes := by
  rcases is_running_snd E s name with h | h <;> simp [h, eraseRunning]

theorem is_running_stopped (E : Env) (s : WatcherState) (name : String) :
    (is_running E s name).2.stopped_processes = s.stopped_processes := by
  rcases is_running_snd E s name with h | h <;> simp [h, eraseRunning]

/-- Pruning by `is_running` touches no other name's tracked entry. -/
theorem is_running_lookup_other (E : Env) (s : WatcherState) (name k : String)
    (h : k ≠ name) :
    (is_running E s name).2.running_processes.lookup k =
      s.running_processes.lookup k := by
  rcases is_running_snd E s name with h2 | h2 <;> rw [h2]
  exact lookup_filterOut_other _ _ _ h

/-- `get_config_by_name` reads only the spec list. -/
theorem get_config_congr (s t : WatcherState) (name : String)
    (h : s.processes = t.processes) :
    get_config_by_name s name = get_config_by_name t name := by
  simp [get_config_by_name, h]

/-- The config-based half of `is_running` reads only the spec list. -/
theorem is_running_lookup_congr (E : Env) (s t : WatcherState) (name : String)
    (h : s.processes = t.processes) :
    is_running_lookup E s name = is_running_lookup E t name := by
  simp [is_running_lookup, get_config_congr s t name h]

/-- Running `is_running` twice in a row returns the same answer and the
same state: the pruning side effect is idempotent. -/
theorem is_running_idem (E : Env) (s : WatcherState) (name : String) :
    is_running E (is_running E s name).2 name = is_running E s name := by
  unfold is_running
  cases hl : s.running_processes.lookup name with
  | none => simp [hl]
  | some pid =>
    cases hp : pid_exists E pid
    · simp only [hp, Bool.false_eq_true, if_false]
      have he : (eraseRunning s name).running_processes.lookup name = none := by
        simpa [eraseRunning] using lookup_filterOut_self s.running_processes name
      simp [he]
    · simp [hl, hp]

/-- A nonempty needle is never a substring of the empty string. -/
theorem strContains_empty_hay (m : String) (hm : m ≠ "") :
    strContains "" m = false := by
  rcases m with ⟨data⟩
  cases data with
  | nil => exact absurd rfl hm
  | cons c cs => simp [strContains, infixOfB, List.isPrefixOf]

/-- The scan of `find_process_by_match` with only a nonempty match
string succeeds exactly when some scanned process's joined command line
contains it: an empty command line joins to `""`, which cannot contain
the nonempty needle, so the `if cmdline:` guard changes nothing. -/
theorem findAux_match_only (m : String) (hm : m ≠ "") (l : List OsProc) :
    (findAux (some m) none l).isSome =
      l.any (fun p => strContains (joinSpace p.cmdline) m) := by
  induction l with
  | nil => rfl
  | cons proc rest ih =>
    simp only [findAux, List.any_cons]
    by_cases hemp : proc.cmdline = []
    · have hcont : strContains (joinSpace []) m = false := by
        simpa [joinSpace] using strContains_empty_hay m hm
      simp [optTruthy, hm, hemp, hcont, ih, getS]
    · cases hc : strContains (joinSpace proc.cmdline) m
      · simp [optTruthy, hm, hemp, hc, ih, getS, List.isEmpty_iff]
      · simp [optTruthy, hm, hemp, hc, getS, List.isEmpty_iff]

/-- The stopped set after `start_process`: unchanged when the
already-running guard fires, otherwise `name` is erased from it. -/
theorem start_st_stopped (E : Env) (s : WatcherState) (k : String) :
    (start_process E s k).st.stopped_processes = s.stopped_processes ∨
    (start_process E s k).st.stopped_processes =
      eraseStopped s.stopped_processes k := by
  have hst : ((is_running E s k).2).stopped_processes = s.stopped_processes :=
    is_running_stopped E s k
  cases hr : (is_running E s k).1
  · right
    simp only [start_process, hr, Bool.false_eq_true, if_false]
    (repeat' split) <;> simp [hst]
  · left
    simp [start_process, hr, hst]

/-- `start_process` for one name never removes a different name from
the manually-stopped set. -/
theorem start_preserves_other_stopped (E : Env) (s : WatcherState) (k name : String)
    (hne : name ≠ k) (h : name ∈ s.stopped_processes) :
    name ∈ (start_process E s k).st.stopped_processes := by
  rcases start_st_stopped E s k with h2 | h2 <;> rw [h2]
  · exact h
  · exact mem_eraseStopped _ _ _ h hne

/-- The stopped set after `stop_process` is exactly the old set with
`name` added. -/
theorem stop_st_stopped (E : Env) (s : WatcherState) (name : String) :
    (stop_process E s name).st.stopped_processes =
      insertStopped s.stopped_processes name := by
  unfold stop_process
  cases s.running_processes.lookup name <;> simp [eraseRunning] <;> split <;> rfl

/-- `stop_process` never changes the spec list. -/
theorem stop_st_processes (E : Env) (s : WatcherState) (name : String) :
    (stop_process E s name).st.processes = s.processes := by
  unfold stop_process
  cases s.running_processes.lookup name <;> simp [eraseRunning] <;> split <;> rfl

/-- The status scan never changes the stopped set. -/
theorem statuses_aux_stopped (E : Env) (l : List Spec) :
    ∀ (acc : List (String × String)) (s : WatcherState),
      (get_all_statuses_aux E l acc s).2.stopped_processes =
        s.stopped_processes := by
  induction l with
  | nil => intro acc s; rfl
  | cons p rest ih =>
    intro acc s
    simp only [get_all_statuses_aux]
    rw [ih, is_running_stopped]

/-- One pass of the monitor loop keeps every manually-stopped name in
the stopped set and never invokes `start_process` for it. -/
theorem tick_aux_preserves (E : Env) (name : String) (l : List Spec) :
    ∀ (s : WatcherState) (started : List String),
      name ∈ s.stopped_processes → name ∉ started →
      name ∈ (monitor_tick_aux E l s started).1.stopped_processes ∧
        name ∉ (monitor_tick_aux E l s started).2 := by
  induction l with
  | nil => intro s started h h2; exact ⟨h, h2⟩
  | cons p rest ih =>
    intro s started h h2
    simp only [monitor_tick_aux]
    cases hen : p.enabled
    · simpa using ih s started h h2
    · simp only [Bool.not_true, Bool.false_eq_true, if_false]
      cases hstop : s.stopped_processes.contains p.name
      · simp only [Bool.false_eq_true, if_false]
        have hne : name ≠ p.name := by
          intro he
          have hc : s.stopped_processes.contains p.name = true := by
            rw [← he]; simpa using h
          rw [hc] at hstop
          simp at hstop
        have hmem2 : name ∈ (is_running E s p.name).2.stopped_processes := by
          rw [is_running_stopped]; exact h
        cases hrun : (is_running E s p.name).1
        · simp only [Bool.false_eq_true, if_false]
          have hmem3 :
              name ∈ (start_process E (is_running E s p.name).2 p.name).st.stopped_processes :=
            start_preserves_other_stopped E _ p.name name hne hmem2
          have hst2 : name ∉ started ++ [p.name] := by
            simp [h2, hne]
          exact ih _ _ hmem3 hst2
        · simpa using ih _ started hmem2 h2
      · simpa using ih s started h h2

/-- Iterated monitor ticks keep a manually-stopped name stopped and
never start it. -/
theorem ticks_preserve (E : Env) (name : String) :
    ∀ (n : Nat) (s : WatcherState), name ∈ s.stopped_processes →
      name ∈ (monitor_ticks E n s).1.stopped_processes ∧
        name ∉ (monitor_ticks E n s).2 := by
  intro n
  induction n with
  | zero =>
    intro s h
    exact ⟨by simpa [monitor_ticks] using h, by simp [monitor_ticks]⟩
  | succ k ih =>
    intro s h
    have h1 := tick_aux_preserves E name s.processes s [] h (by simp)
    have h2 := ih (monitor_tick E s).1 h1.1
    simp only [monitor_ticks]
    refine ⟨h2.1, ?_⟩
    intro hmem
    rcases List.mem_append.mp hmem with hmem | hmem
    · exact h1.2 hmem
    · exact h2.2 hmem

/-- `get_config_by_name` ignores the stopped set. -/
@[simp] theorem get_config_set_stopped (s : WatcherState) (x : List String)
    (name : String) :
    get_config_by_name { s with stopped_processes := x } name =
      get_config_by_name s name := rfl

/-- `get_config_by_name` ignores the launched map. -/
@[simp] theorem get_config_set_running (s : WatcherState) (x : List (String × Nat))
    (name : String) :
    get_config_by_name { s with running_processes := x } name =
      get_config_by_name s name := rfl

/-! ### Concrete inputs for counterexamples and witnesses -/

/-- A blank environment: no processes, no PID files, spawning fails,
PID-file writes fail, termination succeeds, no config file. -/
def env0 : Env :=
  { procs := []
    pidFileContent := fun _ => none
    spawn := none
    pidWrite := fun _ => false
    kill := fun _ => .ok
    configFile := none }

/-! ### Claim theorems -/

/-- C6: `stop_process` returns true iff at least one candidate PID was
collected into `pids_to_kill` and its termination attempt either
succeeded or found the process already gone (`NoSuchProcess` /
`AccessDenied`); with no candidates at all the `any` is vacuous and the
result is false. -/
theorem c6_stop_return_value (E : Env) (s : WatcherState) (name : String) :
    (stop_process E s name).ok =
      (stop_process E s name).candidates.any (fun p =>
        match E.kill p with
        | .err => false
        | _ => true) := by
  simp only [stop_process]
  (repeat' split) <;> simp_all [List.isEmpty_iff]
  split_ifs at *

/-- C8: `load_config` replaces the spec list wholesale on a successful
read and never touches `running_processes` or `stopped_processes`. -/
theorem c8_reload_frame (E : Env) (s : WatcherState) :
    (load_config E s).running_processes = s.running_processes ∧
    (load_config E s).stopped_processes = s.stopped_processes ∧
    ∀ specs : List Spec, E.configFile = some specs →
      (load_config E s).processes = specs := by
  unfold load_config
  cases h : E.configFile <;> simp_all

def envC8 : Env := { env0 with configFile := some [{ name := "a", command := ["x"] }] }

def stC8 : WatcherState :=
  { processes := [{ name := "old", command := ["y"] }]
    running_processes := [("b", 3)]
    stopped_processes := ["c"] }

/-- Witness for C8 at a concrete reload that drops name `b` and `c`
from the configuration. -/
theorem c8_witness :
    (load_config envC8 stC8).running_processes = [("b", 3)] ∧
    (load_config envC8 stC8).stopped_processes = ["c"] ∧
    (load_config envC8 stC8).processes = [{ name := "a", command := ["x"] }] := by
  have h := c8_reload_frame envC8 stC8
  exact ⟨h.1, h.2.1, h.2.2 _ rfl⟩

/-- C10: when the spawn succeeds but the PID-file write fails,
`start_process` returns false even though the fresh PID is already
recorded in `running_processes` (the record happens at watcher.py:169,
before the write at watcher.py:171-173). -/
theorem c10_pid_recorded_despite_pidfile_failure (E : Env) (s : WatcherState)
    (name : String) (sp : Spec) (pf : String) (pid : Nat)
    (hrun : (is_running E s name).1 = false)
    (hcfg : get_config_by_name s name = some sp)
    (hpf : sp.pid_file = some pf)
    (hspawn : E.spawn = some pid)
    (hwrite : E.pidWrite pf = false) :
    (start_process E s name).ok = false ∧
    (start_process E s name).spawned = true ∧
    (start_process E s name).st.running_processes.lookup name = some pid := by
  have hc : get_config_by_name (is_running E s name).2 name =
      get_config_by_name s name :=
    get_config_congr _ _ _ (is_running_processes E s name)
  simp only [start_process, hrun, Bool.false_eq_true, if_false,
    get_config_set_stopped, hc, hcfg, hspawn, hpf, hwrite]
  simp [lookup_dictInsert_self]

def envC10 : Env := { env0 with spawn := some 42 }

def stC10 : WatcherState :=
  { processes := [{ name := "a", command := ["x"], pid_file := some "f" }]
    running_processes := []
    stopped_processes := [] }

/-- Witness for C10: spawning name `a` yields PID 42, the PID-file
write fails, the call reports failure, yet PID 42 is tracked. -/
theorem c10_witness :
    (start_process envC10 stC10 "a").ok = false ∧
    (start_process envC10 stC10 "a").spawned = true ∧
    (start_process envC10 stC10 "a").st.running_processes.lookup "a" = some 42 :=
  c10_pid_recorded_despite_pidfile_failure envC10 stC10 "a"
    { name := "a", command := ["x"], pid_file := some "f" } "f" 42
    (by decide) (by decide) rfl rfl rfl

/-- C5: when `is_running(name)` reports true, `start_process` returns
true without spawning and without touching the state (beyond the
pruning `is_running` itself may do), and a second call does exactly the
same, so the tracked PID for `name` is identical after both calls. -/
theorem c5_start_idempotent (E : Env) (s : WatcherState) (name : String)
    (h : (is_running E s name).1 = true) :
    start_process E s name = ⟨true, (is_running E s name).2, false⟩ ∧
    start_process E (start_process E s name).st name =
      ⟨true, (is_running E s name).2, false⟩ ∧
    (start_process E (start_process E s name).st name).st.running_processes.lookup name =
      (start_process E s name).st.running_processes.lookup name := by
  have h1 : start_process E s name = ⟨true, (is_running E s name).2, false⟩ := by
    simp [start_process, h]
  have hid := is_running_idem E s name
  have h2 : start_process E (is_running E s name).2 name =
      ⟨true, (is_running E s name).2, false⟩ := by
    simp [start_process, hid, h]
  refine ⟨h1, ?_, ?_⟩ <;> rw [h1] <;> simp [h2]

def envC5 : Env := { env0 with procs := [⟨5, ["worker"], none⟩] }

def stC5 : WatcherState :=
  { processes := [{ name := "a", command := ["worker"], process_match := some "worker" }]
    running_processes := [("a", 5)]
    stopped_processes := [] }

/-- Witness for C5: name `a` is tracked at live PID 5; two consecutive
starts both succeed without spawning and agree on the tracked PID. -/
theorem c5_witness :
    start_process envC5 stC5 "a" = ⟨true, (is_running envC5 stC5 "a").2, false⟩ ∧
    start_process envC5 (start_process envC5 stC5 "a").st "a" =
      ⟨true, (is_running envC5 stC5 "a").2, false⟩ ∧
    (start_process envC5 (start_process envC5 stC5 "a").st "a").st.running_processes.lookup "a" =
      (start_process envC5 stC5 "a").st.running_processes.lookup "a" :=
  c5_start_idempotent envC5 stC5 "a" (by decide)

/-- C9 as stated is false: with no spec configured and a tracked PID
that is no longer alive (so no internally-tracked live PID exists),
the dead tracked PID still becomes a candidate and its `NoSuchProcess`
termination counts as success, so `stop_process` returns true. -/
def stC9 : WatcherState :=
  { processes := [], running_processes := [("a", 7)], stopped_processes := [] }

def envC9 : Env := { env0 with kill := fun _ => .gone }

/-- Counterexample to C9: name `a` has no spec and its tracked PID 7 is
not live, yet `stop_process` returns true, not false. -/
theorem c9_counterexample :
    stC9.running_processes.lookup "a" = some 7 ∧
    pid_exists envC9 7 = false ∧
    get_config_by_name stC9 "a" = none ∧
    (stop_process envC9 stC9 "a").ok = true := by decide

/-- C9 amended: for a name with no spec configured and no
internally-tracked entry at all, `stop_process` returns false and the
name is still added to the manually-stopped set. -/
theorem c9_amended_stop_unconfigured (E : Env) (s : WatcherState) (name : String)
    (hcfg : get_config_by_name s name = none)
    (htr : s.running_processes.lookup name = none) :
    (stop_process E s name).ok = false ∧
    name ∈ (stop_process E s name).st.stopped_processes := by
  constructor
  · simp [stop_process, htr, hcfg]
  · rw [stop_st_stopped]
    exact mem_insertStopped_self _ _

def stC9b : WatcherState :=
  { processes := [], running_processes := [], stopped_processes := [] }

/-- Witness for amended C9 on a fully unconfigured name. -/
theorem c9_amended_witness :
    (stop_process envC9 stC9b "a").ok = false ∧
    "a" ∈ (stop_process envC9 stC9b "a").st.stopped_processes :=
  c9_amended_stop_unconfigured envC9 stC9b "a" rfl rfl

def stC2 : WatcherState :=
  { processes := [], running_processes := [], stopped_processes := ["a"] }

/-- Counterexample to C2: starting unconfigured name `a` fails
(`NotConfigured`), yet the manually-stopped set is not left as it was:
`a` has been removed from it. -/
theorem c2_counterexample :
    (start_process env0 stC2 "a").ok = false ∧
    stC2.stopped_processes = ["a"] ∧
    (start_process env0 stC2 "a").st.stopped_processes = [] := by decide

/-- C2 amended: when `start_process` fails before a PID is obtained
(`NotConfigured`, or spawn failure), it returns false and the observed
state is unchanged except at `name` itself: `name` is removed from the
manually-stopped set, and its tracked entry may have been pruned by the
initial liveness probe if it was dead; all other entries are intact. -/
theorem c2_amended_start_failure_frame (E : Env) (s : WatcherState) (name : String)
    (hok : (start_process E s name).ok = false)
    (hsp : (start_process E s name).spawned = false) :
    (start_process E s name).st.processes = s.processes ∧
    (start_process E s name).st.stopped_processes =
      eraseStopped s.stopped_processes name ∧
    ((start_process E s name).st.running_processes = s.running_processes ∨
     (start_process E s name).st.running_processes =
       s.running_processes.filter (fun q => q.1 != name)) := by
  have hc : get_config_by_name (is_running E s name).2 name =
      get_config_by_name s name :=
    get_config_congr _ _ _ (is_running_processes E s name)
  cases hr : (is_running E s name).1
  · simp only [start_process, hr, Bool.false_eq_true, if_false,
      get_config_set_stopped, hc] at hok hsp ⊢
    cases hcfg : get_config_by_name s name with
    | none =>
      simp only [hcfg]
      refine ⟨is_running_processes E s name, ?_, ?_⟩
      · rw [is_running_stopped]
      · rcases is_running_snd E s name with h2 | h2 <;> rw [h2]
        · left; rfl
        · right; rfl
    | some config =>
      cases hspawn : E.spawn with
      | none =>
        simp only [hcfg, hspawn]
        refine ⟨is_running_processes E s name, ?_, ?_⟩
        · rw [is_running_stopped]
        · rcases is_running_snd E s name with h2 | h2 <;> rw [h2]
          · left; rfl
          · right; rfl
      | some pid =>
        simp only [hcfg, hspawn] at hsp hok
        cases hpf : config.pid_file with
        | none => simp [hpf] at hsp
        | some pf =>
          cases hw : E.pidWrite pf
          · simp [hpf, hw] at hsp
          · simp [hpf, hw] at hok
  · simp [start_process, hr] at hok

/-- Witness for amended C2 at the `NotConfigured` failure. -/
theorem c2_amended_witness :
    (start_process env0 stC2 "a").st.processes = stC2.processes ∧
    (start_process env0 stC2 "a").st.stopped_processes =
      eraseStopped stC2.stopped_processes "a" ∧
    ((start_process env0 stC2 "a").st.running_processes = stC2.running_processes ∨
     (start_process env0 stC2 "a").st.running_processes =
       stC2.running_processes.filter (fun q => q.1 != "a")) :=
  c2_amended_start_failure_frame env0 stC2 "a" (by decide) (by decide)

/-- When `name` is not tracked at a live PID, `is_running` reduces to
the config-based lookup (the pruning, if any, does not change the spec
list the lookup reads). -/
theorem is_running_fst_of_no_live (E : Env) (s : WatcherState) (name : String)
    (htr : ∀ pid, s.running_processes.lookup name = some pid →
      pid_exists E pid = false) :
    (is_running E s name).1 = is_running_lookup E s name := by
  unfold is_running
  cases hl : s.running_processes.lookup name with
  | none => rfl
  | some pid =>
    have hd := htr pid hl
    simp only [hd, Bool.false_eq_true, if_false]
    exact is_running_lookup_congr E (eraseRunning s name) s name rfl

def spC1 : Spec := { name := "a", command := ["x"], process_match := some "xyz" }

def envC1 : Env := { env0 with procs := [⟨5, ["python", "app.py"], none⟩] }

def stC1 : WatcherState :=
  { processes := [spC1], running_processes := [("a", 5)], stopped_processes := [] }

/-- Counterexample to C1: spec `a` has only `process_match := "xyz"`
configured; no live process's joined command line contains `"xyz"`,
yet `is_running` returns true, because `a` is internally tracked at
live PID 5 and that fast path never inspects the command line. -/
theorem c1_counterexample :
    get_config_by_name stC1 "a" = some spC1 ∧
    spC1.pid_file = none ∧
    spC1.executable_path = none ∧
    spC1.process_match = some "xyz" ∧
    envC1.procs.any (fun p => strContains (joinSpace p.cmdline) "xyz") = false ∧
    (is_running envC1 stC1 "a").1 = true := by decide

/-- C1 amended: for a spec whose only identity field is a nonempty
`process_match`, provided the name is not internally tracked at a live
PID, `is_running` returns true iff some live process's joined command
line contains the match string. -/
theorem c1_amended_match_only_iff (E : Env) (s : WatcherState)
    (name m : String) (sp : Spec)
    (hcfg : get_config_by_name s name = some sp)
    (hpf : sp.pid_file = none)
    (hep : sp.executable_path = none)
    (hpm : sp.process_match = some m)
    (hm : m ≠ "")
    (htr : ∀ pid, s.running_processes.lookup name = some pid →
      pid_exists E pid = false) :
    (is_running E s name).1 =
      E.procs.any (fun p => strContains (joinSpace p.cmdline) m) := by
  rw [is_running_fst_of_no_live E s name htr]
  simp only [is_running_lookup, hcfg, resolve_spec, hpf, hpm, hep]
  simp [find_process_by_match, findAux_match_only m hm]

def envC1b : Env := { env0 with procs := [⟨5, ["python", "xyz.py"], none⟩] }

def stC1b : WatcherState :=
  { processes := [spC1], running_processes := [], stopped_processes := [] }

/-- Witness for amended C1: untracked name `a`, one live process whose
command line joins to `"python xyz.py"`, which contains `"xyz"`. -/
theorem c1_amended_witness :
    (is_running envC1b stC1b "a").1 =
      envC1b.procs.any (fun p => strContains (joinSpace p.cmdline) "xyz") :=
  c1_amended_match_only_iff envC1b stC1b "a" "xyz" spC1 rfl rfl rfl rfl
    (by decide) (by intro pid h; simp [stC1b, List.lookup] at h)

def spC4 : Spec :=
  { name := "a", command := ["x"], pid_file := some "f"
    executable_path := some "/bin/a" }

def envC4 : Env :=
  { env0 with
    procs := [⟨1, ["w"], some "/bin/b"⟩, ⟨2, [], some "/bin/a"⟩]
    pidFileContent := fun f => if f == "f" then some 1 else none }

def stC4 : WatcherState :=
  { processes := [spC4], running_processes := [], stopped_processes := [] }

/-- Counterexample to C4: the PID file for `a` names live PID 1, whose
executable `/bin/b` fails the `executable_path = /bin/a` check, so the
PID-file result is rejected — but `is_running` still returns true,
because the fallback executable-only scan finds the unrelated live
PID 2 whose executable is `/bin/a`. -/
theorem c4_counterexample :
    check_pid_file envC4 "f" spC4.process_match spC4.executable_path = none ∧
    pid_exists envC4 1 = true ∧
    (is_running envC4 stC4 "a").1 = true := by decide

/-- C4 amended: with `pid_file` and a nonempty `executable_path`
configured, a PID file naming a live PID whose executable does not pass
the (case-insensitive, path-normalised) comparison is rejected as
stale; and if in addition no live process matches the fallback
command-line or executable scans and the name is not internally tracked
at a live PID, `is_running` returns false even though that PID is
alive. -/
theorem c4_amended_stale_pidfile (E : Env) (s : WatcherState) (name : String)
    (sp : Spec) (pf ep : String) (pid : Nat) (proc : OsProc)
    (hcfg : get_config_by_name s name = some sp)
    (hpf : sp.pid_file = some pf)
    (hep : sp.executable_path = some ep)
    (hepne : ep ≠ "")
    (hfile : E.pidFileContent pf = some pid)
    (hproc : procByPid E pid = some proc)
    (hmis : (optTruthy proc.exe && pathEq ep (getS proc.exe)) = false)
    (hfb1 : find_process_by_match E sp.process_match sp.executable_path = none)
    (hfb2 : find_process_by_match E none sp.executable_path = none)
    (htr : ∀ q, s.running_processes.lookup name = some q →
      pid_exists E q = false) :
    check_pid_file E pf sp.process_match sp.executable_path = none ∧
    (is_running E s name).1 = false := by
  have hC : (optTruthy (some ep) &&
      (!(optTruthy proc.exe) || !(pathEq (getS (some ep)) (getS proc.exe)))) = true := by
    have h1 : optTruthy (some ep) = true := by simp [optTruthy, hepne]
    have h2 : (!(optTruthy proc.exe) || !(pathEq ep (getS proc.exe))) = true := by
      cases ha : optTruthy proc.exe <;>
        cases hb : pathEq ep (getS proc.exe) <;> simp_all
    simp only [getS, Option.getD] at h2 ⊢
    rw [h1, h2]
    rfl
  have hchk : check_pid_file E pf sp.process_match sp.executable_path = none := by
    rw [hep]
    simp only [check_pid_file, hfile, hproc, hC, if_true]
  refine ⟨hchk, ?_⟩
  rw [is_running_fst_of_no_live E s name htr]
  simp only [is_running_lookup, hcfg, resolve_spec, hpf, hchk]
  cases hpm : sp.process_match with
  | none =>
    rw [hpm] at hfb1
    rw [hep] at hfb2 ⊢
    simp [hfb2]
  | some m =>
    rw [hpm] at hfb1
    rw [hep] at hfb1 ⊢
    simp [hfb1]

def envC4b : Env :=
  { envC4 with procs := [⟨1, ["w"], some "/bin/b"⟩] }

/-- Witness for amended C4: same stale PID file, but no other live
process matches anything, so `is_running` is false although PID 1 is
alive. -/
theorem c4_amended_witness :
    check_pid_file envC4b "f" spC4.process_match spC4.executable_path = none ∧
    (is_running envC4b stC4 "a").1 = false :=
  c4_amended_stale_pidfile envC4b stC4 "a" spC4 "f" "/bin/a" 1
    ⟨1, ["w"], some "/bin/b"⟩ rfl rfl rfl (by decide) rfl rfl
    (by decide) (by decide) (by decide)
    (by intro q h; simp [stC4, List.lookup] at h)

/-- C3: `stop_process(name)` always puts `name` into the
manually-stopped set, even when no process was found; while `name` is
in that set, any number of monitor-loop ticks never invokes
`start_process` for it and keeps it in the set; and no other modelled
operation — stopping any name, `is_running`, the status scan, a config
reload, or starting a *different* name — removes it: only
`start_process(name)` itself contains the removal (watcher.py:119-120). -/
theorem c3_stop_suppresses_restart (E : Env) (s : WatcherState) (name k : String) :
    name ∈ (stop_process E s name).st.stopped_processes ∧
    (name ∈ s.stopped_processes →
      (∀ n : Nat, name ∉ (monitor_ticks E n s).2 ∧
        name ∈ (monitor_ticks E n s).1.stopped_processes) ∧
      name ∈ (stop_process E s k).st.stopped_processes ∧
      name ∈ (is_running E s k).2.stopped_processes ∧
      name ∈ (get_all_statuses E s).2.stopped_processes ∧
      name ∈ (load_config E s).stopped_processes ∧
      (k ≠ name → name ∈ (start_process E s k).st.stopped_processes)) := by
  refine ⟨?_, fun hmem => ⟨?_, ?_, ?_, ?_, ?_, ?_⟩⟩
  · rw [stop_st_stopped]
    exact mem_insertStopped_self _ _
  · intro n
    have h := ticks_preserve E name n s hmem
    exact ⟨h.2, h.1⟩
  · rw [stop_st_stopped]
    exact mem_insertStopped_of_mem _ _ _ hmem
  · rw [is_running_stopped]
    exact hmem
  · simpa [get_all_statuses, statuses_aux_stopped] using hmem
  · unfold load_config
    cases E.configFile <;> simpa using hmem
  · intro hk
    exact start_preserves_other_stopped E s k name (Ne.symm hk) hmem

def stC3 : WatcherState :=
  { processes := [{ name := "a", command := ["x"] }, { name := "b", command := ["y"] }]
    running_processes := []
    stopped_processes := ["a"] }

/-- Witness for C3 with `a` manually stopped: one full monitor tick
(which does start the non-stopped, non-running `b`) neither starts `a`
nor unstops it, and neither do the other operations. -/
theorem c3_witness :
    "a" ∈ (stop_process env0 stC3 "a").st.stopped_processes ∧
    "a" ∉ (monitor_ticks env0 1 stC3).2 ∧
    "a" ∈ (monitor_ticks env0 1 stC3).1.stopped_processes ∧
    "a" ∈ (stop_process env0 stC3 "b").st.stopped_processes ∧
    "a" ∈ (is_running env0 stC3 "b").2.stopped_processes ∧
    "a" ∈ (get_all_statuses env0 stC3).2.stopped_processes ∧
    "a" ∈ (load_config env0 stC3).stopped_processes ∧
    "a" ∈ (start_process env0 stC3 "b").st.stopped_processes := by
  have h := c3_stop_suppresses_restart env0 stC3 "a" "b"
  have h2 := h.2 (by decide)
  exact ⟨h.1, (h2.1 1).1, (h2.1 1).2, h2.2.1, h2.2.2.1, h2.2.2.2.1,
    h2.2.2.2.2.1, h2.2.2.2.2.2 (by decide)⟩

/-- The boolean result of `is_running` depends only on the spec list
and on the tracked entry of the queried name. -/
theorem is_running_fst_congr (E : Env) (s t : WatcherState) (name : String)
    (hp : s.processes = t.processes)
    (hl : s.running_processes.lookup name = t.running_processes.lookup name) :
    (is_running E s name).1 = (is_running E t name).1 := by
  unfold is_running
  rw [hl]
  cases hlt : t.running_processes.lookup name with
  | none => exact is_running_lookup_congr E s t name hp
  | some pid =>
    cases hpe : pid_exists E pid
    · simp only [hpe, Bool.false_eq_true, if_false]
      exact is_running_lookup_congr E (eraseRunning s name) (eraseRunning t name) name hp
    · simp [hpe]

/-- Inserting a key different from `a` cannot introduce key `a`. -/
theorem dictInsert_all_ne [BEq α] [LawfulBEq α] (acc : List (α × β)) (k a : α) (v : β)
    (h : acc.all (fun q => q.1 != a) = true) (hk : k ≠ a) :
    (dictInsert acc k v).all (fun q => q.1 != a) = true := by
  induction acc with
  | nil => simp [dictInsert, hk]
  | cons x t ih =>
    simp only [List.all_cons, Bool.and_eq_true] at h
    by_cases hx : x.1 = k
    · simp [dictInsert, hx, List.all_cons, hk, h.2]
    · have hxe : (x.1 == k) = false := by simp [hx]
      simp [dictInsert, hxe, List.all_cons, h.1, ih h.2]

/-- Inserting a fresh key appends. -/
theorem dictInsert_append [BEq α] [LawfulBEq α] (acc : List (α × β)) (k : α) (v : β)
    (h : acc.all (fun q => q.1 != k) = true) :
    dictInsert acc k v = acc ++ [(k, v)] := by
  induction acc with
  | nil => rfl
  | cons x t ih =>
    simp only [List.all_cons, Bool.and_eq_true] at h
    have hx : ¬x.1 = k := by simpa using h.1
    simp [dictInsert, hx, ih h.2]

/-- Generalised induction for the status scan: with pairwise-distinct
spec names, threading the `is_running` pruning through the scan changes
nothing observable, so every entry can be computed against the initial
state `sref`. -/
theorem statuses_aux_spec (E : Env) (sref : WatcherState) :
    ∀ (l : List Spec) (acc : List (String × String)) (t : WatcherState),
      t.processes = sref.processes →
      t.stopped_processes = sref.stopped_processes →
      (∀ p ∈ l, t.running_processes.lookup p.name =
        sref.running_processes.lookup p.name) →
      (∀ p ∈ l, acc.all (fun q => q.1 != p.name) = true) →
      (l.map Spec.name).Nodup →
      (get_all_statuses_aux E l acc t).1 = acc ++ l.map (fun p =>
        (p.name,
          if (is_running E sref p.name).1 then "Running"
          else if p.name ∈ sref.stopped_processes then "Stopped (Manual)"
          else "Stopped")) := by
  intro l
  induction l with
  | nil => intro acc t _ _ _ _ _; simp [get_all_statuses_aux]
  | cons p rest ih =>
    intro acc t hp hs hlk hacc hnd
    simp only [get_all_statuses_aux, List.map_cons]
    have hfst : (is_running E t p.name).1 = (is_running E sref p.name).1 :=
      is_running_fst_congr E t sref p.name hp (hlk p (by simp))
    have hstop2 : (is_running E t p.name).2.stopped_processes =
        sref.stopped_processes := by
      rw [is_running_stopped]; exact hs
    have hstat :
        (if (is_running E t p.name).1 then "Running"
         else if (is_running E t p.name).2.stopped_processes.contains p.name then
           "Stopped (Manual)"
         else "Stopped") =
        (if (is_running E sref p.name).1 then "Running"
         else if p.name ∈ sref.stopped_processes then "Stopped (Manual)"
         else "Stopped") := by
      rw [hfst, hstop2]
      by_cases hc : p.name ∈ sref.stopped_processes <;> simp [hc]
    rw [hstat]
    have hnames : p.name ∉ rest.map Spec.name := (List.nodup_cons.mp hnd).1
    have hp2 : (is_running E t p.name).2.processes = sref.processes := by
      rw [is_running_processes]; exact hp
    have hlk2 : ∀ q ∈ rest,
        (is_running E t p.name).2.running_processes.lookup q.name =
          sref.running_processes.lookup q.name := by
      intro q hq
      have hqne : q.name ≠ p.name := by
        intro he
        exact hnames (he ▸ List.mem_map_of_mem Spec.name hq)
      rw [is_running_lookup_other E t p.name q.name hqne]
      exact hlk q (by simp [hq])
    have hacc2 : ∀ q ∈ rest,
        (dictInsert acc p.name
          (if (is_running E sref p.name).1 then "Running"
           else if p.name ∈ sref.stopped_processes then "Stopped (Manual)"
           else "Stopped")).all (fun z => z.1 != q.name) = true := by
      intro q hq
      have hqne : p.name ≠ q.name := by
        intro he
        exact hnames (he ▸ List.mem_map_of_mem Spec.name hq)
      exact dictInsert_all_ne _ _ _ _ (hacc q (by simp [hq])) hqne
    rw [ih _ _ hp2 (by rw [is_running_stopped]; exact hs) hlk2 hacc2
      (List.nodup_cons.mp hnd).2]
    rw [dictInsert_append acc p.name _ (hacc p (by simp))]
    simp

/-- C7: with the configured names pairwise distinct (the documented
invariant), `get_all_statuses` yields one entry per loaded spec —
disabled specs included — in declaration order, labelled `Running` when
the liveness probe succeeds, else `Stopped (Manual)` when the name is
manually stopped, else `Stopped`. -/
theorem c7_statuses (E : Env) (s : WatcherState)
    (hnd : (s.processes.map Spec.name).Nodup) :
    (get_all_statuses E s).1 = s.processes.map (fun p =>
      (p.name,
        if (is_running E s p.name).1 then "Running"
        else if p.name ∈ s.stopped_processes then "Stopped (Manual)"
        else "Stopped")) := by
  have h := statuses_aux_spec E s s.processes [] s rfl rfl
    (fun _ _ => rfl) (fun _ _ => rfl) hnd
  simpa [get_all_statuses] using h

def envC7 : Env := { env0 with procs := [⟨5, ["alpha"], none⟩] }

def stC7 : WatcherState :=
  { processes :=
      [{ name := "a", command := ["x"], process_match := some "alpha" },
       { name := "b", command := ["y"], process_match := some "beta" },
       { name := "c", command := ["z"], process_match := some "gamma", enabled := false }]
    running_processes := []
    stopped_processes := ["b"] }

/-- Witness for C7: three specs — `a` running, `b` manually stopped,
`c` disabled and not running — all listed, in declaration order. -/
theorem c7_witness :
    (get_all_statuses envC7 stC7).1 =
      [("a", "Running"), ("b", "Stopped (Manual)"), ("c", "Stopped")] := by
  rw [c7_statuses envC7 stC7 (by decide)]
  decide

end Watchdog
